import Mathlib

/-!
# Verification of the LLM-use-cases-collector reconciliation core

A shallow embedding of the Reddit submission/comment reconciliation service
(`collector/services.py`), the identifier normalizer (`format_id`), the author
resolver (`_get_or_create_author`), the retry controller inside
`process_subreddit`, the text assembler (`get_submission_text`) and the
classification runner (`CheckSubmissionForInformationService.execute`,
`get_python_type`, `create_pydantic_model`).

Modelling conventions:
* Python `datetime` values are modelled as `Nat` epoch seconds; the upstream
  `edited` field (praw: `False` or a float timestamp) is a `Nat` where `0` is
  the Python-falsy "never edited" value, exactly matching the source's
  `if submission.edited` truthiness test.
* `upvote_ratio` is only ever copied, never computed with, so it is modelled
  as an integer-scaled value.
* Database rows are Lean structures; the database is lists of rows.  Django's
  `instance.save()` is modelled by replacing the first row with the same
  `reddit_id` (rows are keyed by the `unique=True` column `reddit_id`), and
  `objects.create` enforces the unique constraint by raising
  `integrityError` when a row with the same key already exists.
* Exceptions are modelled with `Except PyErr`; a raised exception aborts the
  per-submission transaction, which matches `transaction.atomic` rollback
  because the erroring run simply discards its intermediate database.
-/

namespace Collector

/-- Exceptions that the modelled Python code can raise. -/
inductive PyErr where
  /-- Database unique-constraint violation (`django.db.IntegrityError`). -/
  | integrityError
  /-- Model of `ValueError('Invalid id_type provided.')` from `format_id`. -/
  | valueError
  /-- Model of `NameError` from referencing an unbound Python variable. -/
  | nameError
  /-- Model of `prawcore.exceptions.TooManyRequests` from the fetch layer. -/
  | tooManyRequests
  /-- A language-model call failure or pydantic schema mismatch. -/
  | modelCallError
  deriving Repr, DecidableEq

/-! ## Generic list helpers (Django save / queryset operations on row lists) -/

/-- Replace the first element satisfying `p` (model of `instance.save()` on a
row list keyed by a unique column); leaves the list unchanged when no element
matches. -/
def replaceFirst {α : Type} (p : α → Bool) (x : α) : List α → List α
  | [] => []
  | y :: ys => if p y then x :: ys else y :: replaceFirst p x ys

/-! ## Stored rows (collector/models.py) -/

/-- Row of `Redditor`: `username` is `unique=True`, `created_utc` is nullable. -/
structure RedditorRow where
  username : String
  created_utc : Option Nat
  deriving Repr, DecidableEq

/-- Row of `Submission`.  Foreign keys are modelled by their natural keys:
`author` holds the `Redditor.username`, `subreddit` the `Subreddit.name`. -/
structure SubmissionRow where
  reddit_id : String
  author : Option String
  subreddit : String
  title : String
  selftext : String
  url : String
  created_utc : Nat
  score : Int
  upvote_ratio : Int
  num_comments : Nat
  over_18 : Bool
  spoiler : Bool
  stickied : Bool
  distinguished : Option String
  edited_utc : Option Nat
  locked : Bool
  saved : Bool
  is_original_content : Bool
  is_self : Bool
  permalink : String
  author_flair_text : Option String
  link_flair_text : Option String
  link_flair_template_id : Option String
  deriving Repr, DecidableEq

/-- Row of `Comment`.  Its `submission` field holds the owning submission's `reddit_id`,
`parent` the parent comment's `reddit_id` (nullable: a root comment). -/
structure CommentRow where
  reddit_id : String
  submission : String
  author : Option String
  body : String
  body_html : String
  created_utc : Nat
  score : Int
  parent : Option String
  distinguished : Option String
  edited_utc : Option Nat
  stickied : Bool
  saved : Bool
  is_submitter : Bool
  permalink : String
  deriving Repr, DecidableEq

/-- The relational store: the three tables the reconciliation core touches. -/
structure DB where
  redditors : List RedditorRow
  submissions : List SubmissionRow
  comments : List CommentRow
  deriving Repr, DecidableEq

/-! ## Fetched snapshots (what the praw fetch layer hands the service) -/

/-- A praw author reference (`submission.author` / `comment.author` when not
deleted): `name` plus `created_utc` (`0` = Python-falsy, matching the
source's `if getattr(author, "created_utc", None)` test). -/
structure FetchedAuthor where
  name : String
  created_utc : Nat
  deriving Repr, DecidableEq

/-- A fetched comment snapshot from `submission.comments.list()`. -/
structure FetchedComment where
  id : String
  author : Option FetchedAuthor
  body : String
  body_html : String
  created_utc : Nat
  score : Int
  /-- Raw parent fullname reference (`t1_…` for a comment parent, `t3_…` for
  the submission itself). -/
  parent_id : String
  distinguished : Option String
  /-- Field `comment.edited`: `0` models praw's `False` (never edited). -/
  edited : Nat
  stickied : Bool
  saved : Bool
  is_submitter : Bool
  permalink : String
  deriving Repr, DecidableEq

/-- A fetched submission snapshot together with its fully expanded comment
list (`submission.comments.replace_more(limit=None)`; `comments.list()`). -/
structure FetchedSubmission where
  id : String
  author : Option FetchedAuthor
  title : String
  selftext : String
  url : String
  created_utc : Nat
  score : Int
  upvote_ratio : Int
  num_comments : Nat
  over_18 : Bool
  spoiler : Bool
  stickied : Bool
  distinguished : Option String
  /-- Field `submission.edited`: `0` models praw's `False` (never edited). -/
  edited : Nat
  locked : Bool
  saved : Bool
  is_original_content : Bool
  is_self : Bool
  permalink : String
  author_flair_text : Option String
  link_flair_text : Option String
  link_flair_template_id : Option String
  comments : List FetchedComment
  deriving Repr, DecidableEq

/-! ## Identifier normalizer (`CollectSubmissionsService.format_id`) -/

/-- The `prefix_map` dict in `format_id`. -/
def prefixMap (idType : String) : Option String :=
  if idType = "Submission" then some "t3"
  else if idType = "Comment" then some "t1"
  else if idType = "User" then some "t2"
  else if idType = "Message" then some "t4"
  else if idType = "Subreddit" then some "t5"
  else if idType = "Award" then some "t6"
  else none

/-- Model of `id_str[3:]`: drop the first three characters (Python slicing is by
characters, i.e. by entries of the underlying character list). -/
def stripFullname (s : String) : String := ⟨s.data.drop 3⟩

/-- Python truthiness of the optional `id_type` argument: `None` and the
empty string are both falsy. -/
def idTypeTruthy : Option String → Bool
  | none => false
  | some s => !(s == "")

/-- Model of `format_id(id_str, id_type=None)`: with a truthy `id_type`, look up the
prefix (raising `ValueError` for an unknown type) and return
`f'{prefix}_{id_str}'`; otherwise return `id_str[3:]`. -/
def format_id (idStr : String) (idType : Option String := none) : Except PyErr String :=
  if idTypeTruthy idType then
    match prefixMap (idType.getD "") with
    | none => .error .valueError
    | some pfx => .ok (pfx ++ "_" ++ idStr)
  else
    .ok (stripFullname idStr)

/-! ## Author resolver (`_get_or_create_author`) -/

/-- Model of `Redditor.objects.get_or_create(username=…, created_utc=…)`: Django keys
the lookup on *both* fields; the create step enforces the `unique=True`
constraint on `username`, raising `IntegrityError` when a row with the same
username but a different stored timestamp already exists. -/
def getOrCreateRedditor (db : DB) (username : String) (created : Option Nat) :
    Except PyErr (RedditorRow × DB) :=
  match db.redditors.find? (fun r => r.username == username && r.created_utc == created) with
  | some r => .ok (r, db)
  | none =>
    if db.redditors.any (fun r => r.username == username) then
      .error .integrityError
    else
      let r : RedditorRow := ⟨username, created⟩
      .ok (r, { db with redditors := db.redditors ++ [r] })

/-- Model of `_get_or_create_author(author)`: a falsy (deleted) author yields `None`;
otherwise the author's `created_utc` is attached when truthy and the row is
obtained via `get_or_create`.  Returns the resolved author key (username). -/
def getOrCreateAuthor (db : DB) (author : Option FetchedAuthor) :
    Except PyErr (Option String × DB) :=
  match author with
  | none => .ok (none, db)
  | some a =>
    let created : Option Nat := if a.created_utc ≠ 0 then some a.created_utc else none
    match getOrCreateRedditor db a.name created with
    | .ok (r, db') => .ok (some r.username, db')
    | .error e => .error e

/-! ## Submission reconciliation (`process_submission` and helpers) -/

/-- Model of `datetime.fromtimestamp(x.edited, timezone.utc) if x.edited else None`. -/
def editedOpt (edited : Nat) : Option Nat :=
  if edited ≠ 0 then some edited else none

/-- The update-branch condition shared by `process_submission` and
`process_submission_comments`: the fetched edited timestamp is truthy and
either no stored `edited_utc` exists or the fetched one is strictly newer. -/
def needsFullUpdate (fetched stored : Option Nat) : Bool :=
  match fetched with
  | none => false
  | some t1 =>
    match stored with
    | none => true
    | some t0 => t0 < t1

/-- Field assignments of `_create_submission` (the `Submission.objects.create`
keyword arguments), given the already-resolved author. -/
def createSubmissionRow (f : FetchedSubmission) (subreddit : String)
    (author : Option String) : SubmissionRow where
  reddit_id := f.id
  author := author
  subreddit := subreddit
  title := f.title
  selftext := f.selftext
  url := f.url
  created_utc := f.created_utc
  score := f.score
  upvote_ratio := f.upvote_ratio
  num_comments := f.num_comments
  over_18 := f.over_18
  spoiler := f.spoiler
  stickied := f.stickied
  distinguished := f.distinguished
  edited_utc := editedOpt f.edited
  locked := f.locked
  saved := f.saved
  is_original_content := f.is_original_content
  is_self := f.is_self
  permalink := f.permalink
  author_flair_text := f.author_flair_text
  link_flair_text := f.link_flair_text
  link_flair_template_id := f.link_flair_template_id

/-- Model of `_update_submission`: overwrite every mutable field of the stored row
from the fetched snapshot (author already resolved). -/
def updateSubmissionFull (inst : SubmissionRow) (f : FetchedSubmission)
    (author : Option String) : SubmissionRow :=
  { inst with
    author := author
    title := f.title
    selftext := f.selftext
    url := f.url
    score := f.score
    upvote_ratio := f.upvote_ratio
    num_comments := f.num_comments
    over_18 := f.over_18
    spoiler := f.spoiler
    stickied := f.stickied
    distinguished := f.distinguished
    edited_utc := editedOpt f.edited
    locked := f.locked
    saved := f.saved
    is_original_content := f.is_original_content
    is_self := f.is_self
    permalink := f.permalink
    author_flair_text := f.author_flair_text
    link_flair_text := f.link_flair_text
    link_flair_template_id := f.link_flair_template_id }

/-- Model of `_update_submission_metadata`: only the frequently-churning fields. -/
def updateSubmissionMetadata (inst : SubmissionRow) (f : FetchedSubmission) :
    SubmissionRow :=
  { inst with
    score := f.score
    upvote_ratio := f.upvote_ratio
    num_comments := f.num_comments
    stickied := f.stickied
    locked := f.locked
    saved := f.saved }

/-- Model of `instance.save()` for a submission row (update keyed on `reddit_id`). -/
def saveSubmission (db : DB) (r : SubmissionRow) : DB :=
  { db with submissions := replaceFirst (fun s => s.reddit_id == r.reddit_id) r db.submissions }

/-- Model of `Submission.objects.create(...)` with the `reddit_id` unique constraint. -/
def insertSubmission (db : DB) (r : SubmissionRow) : Except PyErr DB :=
  if db.submissions.any (fun s => s.reddit_id == r.reddit_id) then
    .error .integrityError
  else
    .ok { db with submissions := db.submissions ++ [r] }

/-- Model of `process_submission`: look up the stored row by `reddit_id`; when present
apply the full-update-vs-metadata rule, when absent create the row. -/
def processSubmission (db : DB) (f : FetchedSubmission) (subreddit : String) :
    Except PyErr (SubmissionRow × DB) :=
  match db.submissions.find? (fun s => s.reddit_id == f.id) with
  | some inst =>
    if needsFullUpdate (editedOpt f.edited) inst.edited_utc then
      match getOrCreateAuthor db f.author with
      | .ok (a, db') =>
        let r := updateSubmissionFull inst f a
        .ok (r, saveSubmission db' r)
      | .error e => .error e
    else
      let r := updateSubmissionMetadata inst f
      .ok (r, saveSubmission db r)
  | none =>
    match getOrCreateAuthor db f.author with
    | .ok (a, db') =>
      let r := createSubmissionRow f subreddit a
      match insertSubmission db' r with
      | .ok db'' => .ok (r, db'')
      | .error e => .error e
    | .error e => .error e

/-! ## Comment reconciliation (`process_submission_comments` and helpers) -/

/-- Field assignments of `_create_comment`, given the already-resolved author
and the parent resolved through the per-submission cache. -/
def createCommentRow (c : FetchedComment) (subId : String)
    (author : Option String) (parent : Option String) : CommentRow where
  reddit_id := c.id
  submission := subId
  author := author
  body := c.body
  body_html := c.body_html
  created_utc := c.created_utc
  score := c.score
  parent := parent
  distinguished := c.distinguished
  edited_utc := editedOpt c.edited
  stickied := c.stickied
  saved := c.saved
  is_submitter := c.is_submitter
  permalink := c.permalink

/-- Model of `_update_comment`: overwrite every mutable field of the stored comment. -/
def updateCommentFull (inst : CommentRow) (c : FetchedComment)
    (author : Option String) (parent : Option String) : CommentRow :=
  { inst with
    author := author
    body := c.body
    body_html := c.body_html
    score := c.score
    parent := parent
    distinguished := c.distinguished
    edited_utc := editedOpt c.edited
    stickied := c.stickied
    saved := c.saved
    is_submitter := c.is_submitter
    permalink := c.permalink }

/-- Model of `_update_comment_metadata`: score and the sticky/save flags only. -/
def updateCommentMetadata (inst : CommentRow) (c : FetchedComment) : CommentRow :=
  { inst with
    score := c.score
    stickied := c.stickied
    saved := c.saved }

/-- Model of `instance.save()` for a comment row (update keyed on `reddit_id`). -/
def saveComment (db : DB) (r : CommentRow) : DB :=
  { db with comments := replaceFirst (fun s => s.reddit_id == r.reddit_id) r db.comments }

/-- Lookup in the per-submission cache `self.submission_comments`
(a dict keyed by bare comment id, modelled as a row list). -/
def cacheFind (cache : List CommentRow) (i : String) : Option CommentRow :=
  cache.find? (fun r => r.reddit_id == i)

/-- The parent resolution in `_create_comment` / `_update_comment`:
`self.submission_comments.get(self.format_id(comment.parent_id))`.  The
`format_id` call passes no `id_type`, i.e. it takes the stripping branch, so
the lookup key is `comment.parent_id[3:]`; `.get` silently yields `None`
when the key is absent. -/
def resolveParent (cache : List CommentRow) (c : FetchedComment) : Option String :=
  (cacheFind cache (stripFullname c.parent_id)).map (fun r => r.reddit_id)

/-- One iteration of the `for comment in submission.comments.list()` loop:
cache hit selects update-vs-metadata by the edited rule; cache miss creates
the comment (author first, then parent via the cache, then
`Comment.objects.create` with its `reddit_id` unique constraint) and inserts
the new row into the cache. -/
def processOneComment (subId : String) (db : DB) (cache : List CommentRow)
    (c : FetchedComment) : Except PyErr (DB × List CommentRow) :=
  match cacheFind cache c.id with
  | some inst =>
    if needsFullUpdate (editedOpt c.edited) inst.edited_utc then
      match getOrCreateAuthor db c.author with
      | .ok (a, db') =>
        let r := updateCommentFull inst c a (resolveParent cache c)
        .ok (saveComment db' r, replaceFirst (fun s => s.reddit_id == r.reddit_id) r cache)
      | .error e => .error e
    else
      let r := updateCommentMetadata inst c
      .ok (saveComment db r, replaceFirst (fun s => s.reddit_id == r.reddit_id) r cache)
  | none =>
    match getOrCreateAuthor db c.author with
    | .ok (a, db') =>
      let r := createCommentRow c subId a (resolveParent cache c)
      if db'.comments.any (fun s => s.reddit_id == r.reddit_id) then
        .error .integrityError
      else
        .ok ({ db' with comments := db'.comments ++ [r] }, cache ++ [r])
    | .error e => .error e

/-- The comment loop folded over the fetched list. -/
def processCommentList (subId : String) (db : DB) (cache : List CommentRow) :
    List FetchedComment → Except PyErr DB
  | [] => .ok db
  | c :: rest =>
    match processOneComment subId db cache c with
    | .ok (db', cache') => processCommentList subId db' cache' rest
    | .error e => .error e

/-- Model of `process_submission_comments`: preload the cache with every stored
comment of this submission, then run the loop. -/
def processSubmissionComments (db : DB) (f : FetchedSubmission) (subId : String) :
    Except PyErr DB :=
  processCommentList subId db (db.comments.filter (fun r => r.submission == subId)) f.comments

/-- The per-submission atomic unit inside `process_subreddit`:
`process_submission` followed by `process_submission_comments`.  An error
models the exception propagating out of `transaction.atomic`, whose rollback
is captured by discarding the intermediate database. -/
def reconcileSubmission (db : DB) (f : FetchedSubmission) (subreddit : String) :
    Except PyErr DB :=
  match processSubmission db f subreddit with
  | .ok (inst, db') => processSubmissionComments db' f inst.reddit_id
  | .error e => .error e

/-! ## Retry controller (`process_subreddit`, lines 50–88 of services.py) -/

/-- Outcome of one attempt at the per-submission atomic block, as signalled
by the fetch layer. -/
inductive AttemptOutcome where
  | success
  | rateLimited
  deriving Repr, DecidableEq

/-- Observable result of processing one submission in `process_subreddit`,
together with the total seconds spent in `time.sleep` calls. -/
inductive RetryResult where
  | completed (sleptSeconds : Nat)
  | rateLimitedRaised (sleptSeconds : Nat)
  | nameErrorRaised (sleptSeconds : Nat)
  /-- Model artifact: the supplied outcome stream was exhausted. -/
  | outOfOutcomes (sleptSeconds : Nat)
  deriving Repr, DecidableEq

/-- The `while True` retry loop body.  The `except TooManyRequests` handler
runs, in order: the branch on `error_raised` / `retry_attempts`, then
`self.log_info(f"   Waiting 15 seconds before next retry - retries left:
{attempts}")`.  The name `attempts` is bound nowhere in the method (the
counter is called `retry_attempts`), so evaluating that f-string raises
`NameError` before `time.sleep(15)` is ever reached; only the
`retry_attempts == 0` branch re-raises `TooManyRequests` first. -/
def retryLoop (outcomes : List AttemptOutcome) (errorRaised : Bool)
    (retryAttempts : Nat) (slept : Nat) : RetryResult :=
  match outcomes with
  | [] => .outOfOutcomes slept
  | .success :: _ => .completed slept
  | .rateLimited :: _ =>
    if !errorRaised then
      -- retry_attempts = 5, then the f-string referencing unbound `attempts`
      .nameErrorRaised slept
    else if retryAttempts = 0 then
      .rateLimitedRaised slept
    else
      -- retry_attempts -= 1, then the same unbound-name f-string
      .nameErrorRaised slept

/-- One iteration of the `for submission in subreddit.new()` loop: a first
try/except block runs the atomic unit once and swallows `TooManyRequests`
(its `error_raised = True` assignment is dead — line 62 unconditionally
overwrites it with `False`), then the retry loop starts with
`error_raised = False` and `retry_attempts = 5`, consuming a fresh attempt.
Each list element is the outcome the fetch layer gives one attempt. -/
def processOneSubmissionAttempts (outcomes : List AttemptOutcome) : RetryResult :=
  match outcomes with
  | [] => .outOfOutcomes 0
  | _first :: rest => retryLoop rest false 5 0

/-! ## Text assembler (`CheckSubmissionForInformationService.get_submission_text`) -/

/-- Python truthiness of `s.strip()` (the `if submission.selftext.strip():`
test): true iff the string contains any non-whitespace character. -/
def pyStripTruthy (s : String) : Bool := s.data.any (fun ch => !ch.isWhitespace)

/-- Model of `'    ' * depth`. -/
def indentOf : Nat → String
  | 0 => ""
  | n + 1 => "    " ++ indentOf n

/-- Model of `submission.author.username if submission.author else '[deleted]'`
(the stored author key already is the username). -/
def authorName : Option String → String
  | some u => u
  | none => "[deleted]"

/-- Insert a comment into a list sorted ascending by `created_utc`
(structural model of the database `ORDER BY created_utc`). -/
def insertByCreated (c : CommentRow) : List CommentRow → List CommentRow
  | [] => [c]
  | d :: ds =>
    if c.created_utc ≤ d.created_utc then c :: d :: ds else d :: insertByCreated c ds

/-- Sort comments ascending by `created_utc`. -/
def sortByCreated (l : List CommentRow) : List CommentRow :=
  l.foldr insertByCreated []

/-- Model of `submission.comments.filter(parent=None).order_by('created_utc')`. -/
def rootComments (comments : List CommentRow) : List CommentRow :=
  sortByCreated (comments.filter (fun c => c.parent == none))

/-- Model of `comment.get_children()`: the direct children in tree order, which by
`Comment.MPTTMeta.order_insertion_by = ['created_utc']` is ascending
creation-time order among siblings. -/
def childComments (comments : List CommentRow) (c : CommentRow) : List CommentRow :=
  sortByCreated (comments.filter (fun d => d.parent == some c.reddit_id))

/-- The recursive helper `format_comment(comment, depth)`.  The fuel
argument bounds the recursion depth; the source recursion terminates on the
acyclic trees the store holds, and any fuel of at least the tree height
(e.g. `comments.length + 1`) is enough to never hit the `0` case there. -/
def formatComment (comments : List CommentRow) : Nat → CommentRow → Nat → String
  | 0, _, _ => ""
  | fuel + 1, c, depth =>
    let indent := indentOf depth
    let base := indent ++ "u/" ++ authorName c.author ++ ":\n" ++ indent ++ c.body ++ "\n"
    (childComments comments c).foldl
      (fun acc child => acc ++ "\n" ++ formatComment comments fuel child (depth + 1)) base

/-- The `'-'*50` separator line. -/
def separatorLine : String :=
  "--------------------------------------------------"

/-- Model of `get_submission_text(submission)`: title line, author line, the body when
non-blank, the separator block, then every root comment tree followed by a
blank line, all joined. -/
def getSubmissionText (s : SubmissionRow) (comments : List CommentRow) : String :=
  let head := "Title: " ++ s.title ++ "\n" ++ "Posted by u/" ++ authorName s.author ++ "\n"
  let head := head ++ (if pyStripTruthy s.selftext then "\n" ++ s.selftext ++ "\n" else "")
  let head := head ++ "\n" ++ separatorLine ++ "\nComments:\n"
  (rootComments comments).foldl
    (fun acc c => acc ++ formatComment comments (comments.length + 1) c 0 ++ "\n") head

/-- Modelled from the spec's words (§4.5), for comparison with
`getSubmissionText`: "a title line, an author-attribution line (rendering
`[deleted]` for a null author), the submission body if non-blank, a
separator line, then a depth-first, indentation-encoded rendering of every
root comment in ascending creation-time order, recursing into each comment's
direct children in ascending creation-time order, each line prefixed by four
spaces per depth level and showing the attributed author and body". -/
def specCommentBlock (comments : List CommentRow) : Nat → CommentRow → Nat → String
  | 0, _, _ => ""
  | fuel + 1, c, depth =>
    indentOf depth ++ "u/" ++ authorName c.author ++ ":\n"
      ++ indentOf depth ++ c.body ++ "\n"
      ++ String.join ((childComments comments c).map
        (fun child => "\n" ++ specCommentBlock comments fuel child (depth + 1)))

/-- Modelled from the spec's words (§4.5): the whole transcript assembled as
header lines followed by the root-comment blocks. -/
def specAssembledText (s : SubmissionRow) (comments : List CommentRow) : String :=
  "Title: " ++ s.title ++ "\n"
    ++ "Posted by u/" ++ authorName s.author ++ "\n"
    ++ (if pyStripTruthy s.selftext then "\n" ++ s.selftext ++ "\n" else "")
    ++ "\n" ++ separatorLine ++ "\nComments:\n"
    ++ String.join ((rootComments comments).map
      (fun c => specCommentBlock comments (comments.length + 1) c 0 ++ "\n"))

/-! ## Classification runner (`CheckSubmissionForInformationService`) -/

/-- The Python types the `type_mapping` dict of `get_python_type` can
produce (`'none'` maps to the value `None`). -/
inductive PyType where
  | pyStr
  | pyInt
  | pyFloat
  | pyBool
  | pyDict
  | pyList
  | pyTuple
  | pySet
  | pyNone
  deriving Repr, DecidableEq

/-- The `type_mapping` dict literal in `get_python_type`. -/
def typeMapping (dataType : String) : Option PyType :=
  if dataType = "str" then some .pyStr
  else if dataType = "int" then some .pyInt
  else if dataType = "float" then some .pyFloat
  else if dataType = "bool" then some .pyBool
  else if dataType = "dict" then some .pyDict
  else if dataType = "list" then some .pyList
  else if dataType = "tuple" then some .pyTuple
  else if dataType = "set" then some .pySet
  else if dataType = "none" then some .pyNone
  else none

/-- Model of `get_python_type(data_type)`: `type_mapping.get(data_type, str)`. -/
def getPythonType (dataType : String) : PyType :=
  (typeMapping dataType).getD .pyStr

/-- A `PydanticResponseFormatField` row as consumed by
`create_pydantic_model` (name plus type tag). -/
structure ResponseFormatField where
  name : String
  data_type : String
  deriving Repr, DecidableEq

/-- The `field_definitions` comprehension of `create_pydantic_model`: every
stored field becomes a required model field whose type comes from
`get_python_type`; no field is ever rejected. -/
def createModelFields (fields : List ResponseFormatField) : List (String × PyType) :=
  fields.map (fun fl => (fl.name, getPythonType fl.data_type))

/-- An `InformationToDetect` row joined with its response-format fields. -/
structure InfoToDetect where
  llm_instruction_message : String
  formatName : String
  fields : List ResponseFormatField
  deriving Repr, DecidableEq

/-- The parsed structured verdict (`response_format(**function_call)`) with
the attribute the source reads (`contains_relevant_examples`). -/
structure ParsedVerdict where
  contains_relevant_examples : Bool
  deriving Repr, DecidableEq

/-- The language-model call plus response parsing for one
(submission, spec) pair, as an oracle: instruction text, assembled
submission text and synthesized schema in, parsed verdict or failure out.
It models `client.messages.create(...)` together with
`response_format(**function_call)`; either step raising is a
`.error`. -/
def ModelOracle : Type :=
  String → String → List (String × PyType) → Except PyErr ParsedVerdict

/-- A persisted `DetectedInformation` row (submission key, spec format
name). -/
structure DetectedInformationRow where
  submission : String
  information_tsf : String
  deriving Repr, DecidableEq

/-- The inner `for submission in submissions` loop of
`CheckSubmissionForInformationService.execute` for one spec: assemble the
text, synthesize the schema, invoke the model, parse, and bump the
counters.  The loop body contains no persistence call and no exception
handling, so a failing oracle call aborts the whole run. -/
def checkSpecOnSubmissions (spec : InfoToDetect) (oracle : ModelOracle) :
    List (SubmissionRow × List CommentRow) → Nat → Nat → Except PyErr (Nat × Nat)
  | [], found, processed => .ok (found, processed)
  | (s, comments) :: restSubs, found, processed =>
    let text := getSubmissionText s comments
    let schema := createModelFields spec.fields
    match oracle spec.llm_instruction_message text schema with
    | .ok verdict =>
      let processed := processed + 1
      let found := if verdict.contains_relevant_examples then found + 1 else found
      checkSpecOnSubmissions spec oracle restSubs found processed
    | .error e => .error e

/-- Model of `CheckSubmissionForInformationService.execute`: the outer
`for info_to_detect in InformationToDetect.objects.all()` loop, with the
`DetectedInformation` store threaded through.  No branch of the runner ever
appends to the store, and no branch catches a model-call failure. -/
def checkSubmissionsExecute (specs : List InfoToDetect)
    (submissions : List (SubmissionRow × List CommentRow)) (oracle : ModelOracle)
    (detected : List DetectedInformationRow) (foundCount totalProcessed : Nat) :
    Except PyErr (Nat × Nat × List DetectedInformationRow) :=
  match specs with
  | [] => .ok (foundCount, totalProcessed, detected)
  | spec :: restSpecs =>
    match checkSpecOnSubmissions spec oracle submissions foundCount totalProcessed with
    | .ok (found, processed) =>
      checkSubmissionsExecute restSpecs submissions oracle detected found processed
    | .error e => .error e

/-! ## Generic lemmas about `find?`, `filter`, `replaceFirst` on keyed row lists -/

section ListLemmas

variable {α : Type}

theorem replaceFirst_eq_self {p : α → Bool} {x : α} :
    ∀ {l : List α}, l.find? p = some x → replaceFirst p x l = l := by
  intro l
  induction l with
  | nil => intro h; simp at h
  | cons y ys ih =>
    intro h
    by_cases hp : p y
    · rw [List.find?_cons_of_pos _ hp] at h
      obtain rfl : y = x := by injection h
      simp [replaceFirst, hp]
    · rw [List.find?_cons_of_neg _ hp] at h
      simp [replaceFirst, hp, ih h]

theorem find?_replaceFirst_self {p : α → Bool} {x y : α} (hx : p x = true) :
    ∀ {l : List α}, l.find? p = some y → (replaceFirst p x l).find? p = some x := by
  intro l
  induction l with
  | nil => intro h; simp at h
  | cons z zs ih =>
    intro h
    by_cases hp : p z
    · simp [replaceFirst, hp, List.find?_cons_of_pos _ hx]
    · rw [List.find?_cons_of_neg _ hp] at h
      simp [replaceFirst, hp, List.find?_cons_of_neg _ hp, ih h]

theorem find?_replaceFirst_of_ne (k : α → String) {i j : String} (x : α)
    (hij : i ≠ j) (hx : k x = j) :
    ∀ (l : List α),
      (replaceFirst (fun a => k a == j) x l).find? (fun a => k a == i) =
        l.find? (fun a => k a == i) := by
  intro l
  induction l with
  | nil => rfl
  | cons y ys ih =>
    by_cases hyj : k y = j
    · have hyi : ¬ (k y = i) := by rw [hyj]; exact fun h => hij h.symm
      have hxi : ¬ (k x = i) := by rw [hx]; exact fun h => hij h.symm
      rw [show replaceFirst (fun a => k a == j) x (y :: ys) = x :: ys by
        simp [replaceFirst, hyj]]
      rw [List.find?_cons_of_neg _ (by simp [hxi]), List.find?_cons_of_neg _ (by simp [hyi])]
    · rw [show replaceFirst (fun a => k a == j) x (y :: ys) =
          y :: replaceFirst (fun a => k a == j) x ys by simp [replaceFirst, hyj]]
      by_cases hyi : k y = i
      · rw [List.find?_cons_of_pos _ (by simp [hyi]), List.find?_cons_of_pos _ (by simp [hyi])]
      · rw [List.find?_cons_of_neg _ (by simp [hyi]), List.find?_cons_of_neg _ (by simp [hyi]),
          ih]

theorem find?_append_some {p : α → Bool} {x : α} :
    ∀ {l₁ : List α} (l₂ : List α), l₁.find? p = some x → (l₁ ++ l₂).find? p = some x := by
  intro l₁
  induction l₁ with
  | nil => intro _ h; simp at h
  | cons y ys ih =>
    intro l₂ h
    by_cases hp : p y
    · rw [List.find?_cons_of_pos _ hp] at h
      simpa [List.find?_cons_of_pos _ hp] using h
    · rw [List.find?_cons_of_neg _ hp] at h
      simpa [List.find?_cons_of_neg _ hp] using ih l₂ h

theorem find?_append_none {p : α → Bool} :
    ∀ {l₁ : List α} (l₂ : List α), l₁.find? p = none → (l₁ ++ l₂).find? p = l₂.find? p := by
  intro l₁
  induction l₁ with
  | nil => intro l₂ _; rfl
  | cons y ys ih =>
    intro l₂ h
    by_cases hp : p y
    · rw [List.find?_cons_of_pos _ hp] at h; exact absurd h (by simp)
    · rw [List.find?_cons_of_neg _ hp] at h
      simpa [List.find?_cons_of_neg _ hp] using ih l₂ h

theorem find?_filter {p q : α → Bool} :
    ∀ {l : List α} {x : α}, l.find? p = some x → q x = true →
      (l.filter q).find? p = some x := by
  intro l
  induction l with
  | nil => intro x h; simp at h
  | cons y ys ih =>
    intro x h hq
    by_cases hp : p y
    · rw [List.find?_cons_of_pos _ hp] at h
      obtain rfl : y = x := by injection h
      simp [List.filter_cons, hq, List.find?_cons_of_pos _ hp]
    · rw [List.find?_cons_of_neg _ hp] at h
      by_cases hqy : q y
      · simp [List.filter_cons, hqy, List.find?_cons_of_neg _ hp, ih h hq]
      · simp [List.filter_cons, hqy, ih h hq]

theorem find?_of_filter_nodup (k : α → String) (q : α → Bool) :
    ∀ {l : List α} {x : α} {i : String},
      (l.filter q).find? (fun a => k a == i) = some x → (l.map k).Nodup →
      l.find? (fun a => k a == i) = some x := by
  intro l
  induction l with
  | nil => intro x i h; simp at h
  | cons y ys ih =>
    intro x i h hnd
    rw [List.map_cons, List.nodup_cons] at hnd
    obtain ⟨hky, hnd'⟩ := hnd
    by_cases hyi : k y = i
    · by_cases hqy : q y
      · rw [List.filter_cons_of_pos hqy] at h
        rw [List.find?_cons_of_pos _ (by simp [hyi])] at h
        rw [List.find?_cons_of_pos _ (by simp [hyi])]
        exact h
      · rw [List.filter_cons_of_neg hqy] at h
        have hx : x ∈ ys.filter q := List.mem_of_find?_eq_some h
        have hkx : k x = i := by simpa using List.find?_some h
        have : k x ∈ ys.map k := List.mem_map_of_mem k (List.mem_of_mem_filter hx)
        exact absurd (by rw [hkx, ← hyi] at this; exact this) hky
    · by_cases hqy : q y
      · rw [List.filter_cons_of_pos hqy, List.find?_cons_of_neg _ (by simp [hyi])] at h
        rw [List.find?_cons_of_neg _ (by simp [hyi])]
        exact ih h hnd'
      · rw [List.filter_cons_of_neg hqy] at h
        rw [List.find?_cons_of_neg _ (by simp [hyi])]
        exact ih h hnd'

theorem find?_eq_none_of_any_eq_false {p : α → Bool} {l : List α}
    (h : l.any p = false) : l.find? p = none := by
  rw [List.find?_eq_none]
  intro x hx hp
  have := List.any_eq_true.mpr ⟨x, hx, hp⟩
  rw [h] at this
  exact Bool.false_ne_true this

theorem any_eq_false_of_find?_eq_none {p : α → Bool} {l : List α}
    (h : l.find? p = none) : l.any p = false := by
  rw [List.find?_eq_none] at h
  by_contra hany
  obtain ⟨x, hx, hp⟩ := List.any_eq_true.mp (Bool.of_not_eq_false hany)
  exact h x hx hp

theorem map_replaceFirst (k : α → String) {j : String} (x : α) (hx : k x = j) :
    ∀ (l : List α), (replaceFirst (fun a => k a == j) x l).map k = l.map k := by
  intro l
  induction l with
  | nil => rfl
  | cons y ys ih =>
    by_cases hyj : k y = j
    · simp [replaceFirst, hyj, hx]
    · simp [replaceFirst, hyj, ih]

end ListLemmas

/-! ## Basic facts about the edited-timestamp rule -/

theorem needsFullUpdate_iff (t1 t0 : Option Nat) :
    needsFullUpdate t1 t0 = true ↔
      t1 ≠ none ∧ (t0 = none ∨ ∃ a b, t1 = some a ∧ t0 = some b ∧ b < a) := by
  cases t1 <;> cases t0 <;> simp [needsFullUpdate]

theorem needsFullUpdate_refl (o : Option Nat) : needsFullUpdate o o = false := by
  cases o <;> simp [needsFullUpdate]

/-! ## C10: unknown type tags in schema construction -/

/-- C10: a field type tag outside the closed vocabulary
str/int/float/bool/dict/list/tuple/set/none is silently mapped to the string
type by `get_python_type` (`type_mapping.get(data_type, str)`), and
`create_pydantic_model` turns every stored field into a model field, so
schema construction never rejects an unknown type tag. -/
theorem c10_unknown_type_tag_maps_to_str (tag : String)
    (h : tag ∉ ["str", "int", "float", "bool", "dict", "list", "tuple", "set", "none"]) :
    getPythonType tag = PyType.pyStr ∧
      ∀ fields : List ResponseFormatField,
        (createModelFields fields).length = fields.length := by
  constructor
  · simp only [List.mem_cons, List.not_mem_nil, or_false, not_or] at h
    obtain ⟨h1, h2, h3, h4, h5, h6, h7, h8, h9⟩ := h
    simp [getPythonType, typeMapping, h1, h2, h3, h4, h5, h6, h7, h8, h9]
  · intro fields
    simp [createModelFields]

/-- Witness for C10 at the concrete unknown tag "banana". -/
theorem c10_witness :
    "banana" ∉ ["str", "int", "float", "bool", "dict", "list", "tuple", "set", "none"] ∧
      (getPythonType "banana" = PyType.pyStr ∧
        ∀ fields : List ResponseFormatField,
          (createModelFields fields).length = fields.length) :=
  ⟨by decide, c10_unknown_type_tag_maps_to_str "banana" (by decide)⟩

/-! ## C5: identifier round-trip and the falsy-kind gap -/

/-- C5 as stated is false: `format_id` invoked with the kind `""` — a kind
outside the closed six-kind set — does not raise; Python truthiness sends
the empty string into the stripping branch, so the call silently returns
`id_str[3:]` instead of raising `ValueError`. -/
theorem c5_counterexample :
    format_id "abc" (some "") = .ok "" ∧
      "" ∉ ["Submission", "Comment", "User", "Message", "Subreddit", "Award"] :=
  ⟨rfl, by decide⟩

/-- C5 amended: for every bare id and every kind in the closed set the
round-trip `strip(prefix(id, kind)) = id` holds (strip drops the
3-character prefix unconditionally), and `format_id` with any non-empty
kind outside the closed set raises `ValueError`; an empty-string kind is
Python-falsy and is treated as if no kind was passed. -/
theorem c5_roundtrip_amended :
    (∀ (idStr kind : String),
      kind ∈ ["Submission", "Comment", "User", "Message", "Subreddit", "Award"] →
      ∃ full, format_id idStr (some kind) = .ok full ∧ format_id full none = .ok idStr)
    ∧ (∀ (idStr kind : String),
      kind ∉ ["Submission", "Comment", "User", "Message", "Subreddit", "Award"] →
      kind ≠ "" →
      format_id idStr (some kind) = .error .valueError) := by
  constructor
  · intro idStr kind hk
    simp only [List.mem_cons, List.not_mem_nil, or_false] at hk
    rcases hk with rfl | rfl | rfl | rfl | rfl | rfl
    all_goals exact ⟨_, rfl, rfl⟩
  · intro idStr kind hk hne
    simp only [List.mem_cons, List.not_mem_nil, or_false, not_or] at hk
    obtain ⟨h1, h2, h3, h4, h5, h6⟩ := hk
    simp [format_id, idTypeTruthy, prefixMap, hne, h1, h2, h3, h4, h5, h6]

/-- Witness for C5 at the concrete kind "Comment" and the unknown
non-empty kind "Banana". -/
theorem c5_witness :
    (∃ full, format_id "abc" (some "Comment") = .ok full ∧ format_id full none = .ok "abc")
    ∧ format_id "abc" (some "Banana") = .error .valueError :=
  ⟨c5_roundtrip_amended.1 "abc" "Comment" (by decide),
    c5_roundtrip_amended.2 "abc" "Banana" (by decide) (by decide)⟩

/-! ## C3: the retry controller under consecutive rate limits -/

/-- C3 divergence: under 6 consecutive `TooManyRequests` signals for one
submission, `process_subreddit` does not perform 5 retries with 15-second
pauses and then propagate the rate-limit condition; the first loop handler
run hits the unbound name `attempts` in its logging f-string and raises
`NameError` having slept 0 seconds (the initial try/except swallowed the
first signal, and `error_raised` was reset to `False` before the loop). -/
theorem c3_six_rate_limits_raise_name_error :
    processOneSubmissionAttempts (List.replicate 6 .rateLimited) =
      .nameErrorRaised 0 := rfl

/-! ## C4: author resolution keyed on two fields -/

/-- The store after the first successful resolution of author "alice"
observed with creation timestamp 100. -/
def aliceDb : DB := ⟨[⟨"alice", some 100⟩], [], []⟩

/-- C4 divergence: resolving the same username twice does not return the
same `Redditor` identity when the second resolution observes a different
creation timestamp: `get_or_create` keys on username *and* `created_utc`,
misses the stored row, attempts a duplicate insert and hits the unique
constraint on `username` (`IntegrityError`) instead of returning the
existing row. -/
theorem c4_author_resolution_not_referentially_stable :
    getOrCreateAuthor ⟨[], [], []⟩ (some ⟨"alice", 100⟩) = .ok (some "alice", aliceDb) ∧
      getOrCreateAuthor aliceDb (some ⟨"alice", 200⟩) = .error .integrityError :=
  ⟨rfl, rfl⟩

/-! ## C2: unresolvable non-root parent references -/

/-- A fetched comment whose raw parent reference `t1_zzz` names another
comment (so it is not a root comment) that exists neither in the store nor
in the cache. -/
def orphanParentComment : FetchedComment :=
  { id := "c1", author := none, body := "body", body_html := "<p>body</p>",
    created_utc := 10, score := 1, parent_id := "t1_zzz", distinguished := none,
    edited := 0, stickied := false, saved := false, is_submitter := false,
    permalink := "/c1" }

/-- The already-stored submission row the orphan comment belongs to. -/
def orphanParentSubmissionRow : SubmissionRow :=
  { reddit_id := "s1", author := none, subreddit := "ml", title := "t",
    selftext := "", url := "", created_utc := 5, score := 0, upvote_ratio := 1,
    num_comments := 1, over_18 := false, spoiler := false, stickied := false,
    distinguished := none, edited_utc := none, locked := false, saved := false,
    is_original_content := false, is_self := true, permalink := "/s1",
    author_flair_text := none, link_flair_text := none,
    link_flair_template_id := none }

/-- Store holding the submission but no comments at all. -/
def orphanParentDb : DB := ⟨[], [orphanParentSubmissionRow], []⟩

/-- The fetched snapshot whose only comment has the unresolvable non-root
parent reference. -/
def orphanParentFetched : FetchedSubmission :=
  { id := "s1", author := none, title := "t", selftext := "", url := "",
    created_utc := 5, score := 0, upvote_ratio := 1, num_comments := 1,
    over_18 := false, spoiler := false, stickied := false, distinguished := none,
    edited := 0, locked := false, saved := false, is_original_content := false,
    is_self := true, permalink := "/s1", author_flair_text := none,
    link_flair_text := none, link_flair_template_id := none,
    comments := [orphanParentComment] }

/-- C2 divergence: reconciling a fetched comment that is not a root (its
parent reference `t1_zzz` names another comment) and whose parent id `zzz`
resolves neither in the store nor in the per-submission cache does not
raise any ordering violation: `_create_comment` silently stores the comment
with a null parent and processing of the submission completes successfully. -/
theorem c2_unresolvable_parent_is_silently_nulled :
    processSubmissionComments orphanParentDb orphanParentFetched "s1" =
      .ok { orphanParentDb with
              comments := [createCommentRow orphanParentComment "s1" none none] } ∧
      (createCommentRow orphanParentComment "s1" none none).parent = none ∧
      stripFullname orphanParentComment.parent_id = "zzz" :=
  ⟨rfl, rfl, rfl⟩

/-! ## C7 and C9: the classification runner -/

/-- A configured detection spec with its response-format fields. -/
def detectSpec : InfoToDetect :=
  { llm_instruction_message := "Check whether the thread describes an LLM use case",
    formatName := "UseCaseAnalysis",
    fields := [⟨"contains_relevant_examples", "bool"⟩, ⟨"explanation", "str"⟩] }

/-- First stored submission of the classification batch. -/
def classifiedSubA : SubmissionRow :=
  { orphanParentSubmissionRow with reddit_id := "a1", title := "thread A", permalink := "/a1" }

/-- Second stored submission of the classification batch. -/
def classifiedSubB : SubmissionRow :=
  { orphanParentSubmissionRow with reddit_id := "b1", title := "thread B", permalink := "/b1" }

/-- An oracle for which every model call succeeds with a positive verdict. -/
def alwaysPositiveOracle : ModelOracle := fun _ _ _ => .ok ⟨true⟩

/-- An oracle whose model call fails exactly on the first submission's
assembled text. -/
def failOnFirstOracle : ModelOracle := fun _ text _ =>
  if text == getSubmissionText classifiedSubA [] then .error .modelCallError
  else .ok ⟨true⟩

/-- C7 divergence: running the classification batch over one configured spec
and two submissions with every model call succeeding leaves the
`DetectedInformation` store exactly as it was (here: empty) — `execute`
computes and then discards each parsed verdict, persisting no
`DetectedInformation` record for any (submission, spec) pair. -/
theorem c7_no_detected_information_persisted :
    checkSubmissionsExecute [detectSpec] [(classifiedSubA, []), (classifiedSubB, [])]
      alwaysPositiveOracle [] 0 0 = .ok (2, 2, []) := rfl

/-- C9 divergence: a model-call failure on the first (submission, spec) pair
aborts the whole classification run — the failure propagates out of
`execute` and the second submission of the batch is never processed, rather
than each pair being an independent unit of work. -/
theorem c9_first_failure_aborts_batch :
    checkSubmissionsExecute [detectSpec] [(classifiedSubA, []), (classifiedSubB, [])]
      failOnFirstOracle [] 0 0 = .error .modelCallError := rfl

/-! ## C1: the edited-timestamp rule for existing rows -/

/-- C1: for every existing stored submission (first half) and every existing
stored comment (second half) encountered during reconciliation, a full-field
update is performed iff the fetched edited timestamp is present and either no
stored `edited_utc` exists or the fetched timestamp is strictly newer;
otherwise only the metadata fields change (submissions: score, upvote ratio,
comment count, sticky/lock/save flags; comments: score, sticky, save) and
every content field keeps its stored value. -/
theorem c1_edited_timestamp_rule :
    (∀ (db : DB) (f : FetchedSubmission) (subreddit : String)
      (inst r : SubmissionRow) (db' : DB),
      db.submissions.find? (fun s => s.reddit_id == f.id) = some inst →
      processSubmission db f subreddit = .ok (r, db') →
      ((needsFullUpdate (editedOpt f.edited) inst.edited_utc = true ↔
          editedOpt f.edited ≠ none ∧
            (inst.edited_utc = none ∨
              ∃ t1 t0, editedOpt f.edited = some t1 ∧ inst.edited_utc = some t0 ∧ t0 < t1))
        ∧ (needsFullUpdate (editedOpt f.edited) inst.edited_utc = true →
            ∃ a dbA, getOrCreateAuthor db f.author = .ok (a, dbA) ∧
              r = updateSubmissionFull inst f a ∧ db' = saveSubmission dbA r)
        ∧ (needsFullUpdate (editedOpt f.edited) inst.edited_utc = false →
            r = updateSubmissionMetadata inst f ∧
            db' = saveSubmission db (updateSubmissionMetadata inst f) ∧
            r.score = f.score ∧ r.upvote_ratio = f.upvote_ratio ∧
            r.num_comments = f.num_comments ∧ r.stickied = f.stickied ∧
            r.locked = f.locked ∧ r.saved = f.saved ∧
            r.reddit_id = inst.reddit_id ∧ r.author = inst.author ∧
            r.subreddit = inst.subreddit ∧ r.title = inst.title ∧
            r.selftext = inst.selftext ∧ r.url = inst.url ∧
            r.created_utc = inst.created_utc ∧ r.over_18 = inst.over_18 ∧
            r.spoiler = inst.spoiler ∧ r.distinguished = inst.distinguished ∧
            r.edited_utc = inst.edited_utc ∧
            r.is_original_content = inst.is_original_content ∧
            r.is_self = inst.is_self ∧ r.permalink = inst.permalink ∧
            r.author_flair_text = inst.author_flair_text ∧
            r.link_flair_text = inst.link_flair_text ∧
            r.link_flair_template_id = inst.link_flair_template_id)))
    ∧ (∀ (subId : String) (db : DB) (cache : List CommentRow) (c : FetchedComment)
      (inst : CommentRow) (db' : DB) (cache' : List CommentRow),
      cacheFind cache c.id = some inst →
      processOneComment subId db cache c = .ok (db', cache') →
      ((needsFullUpdate (editedOpt c.edited) inst.edited_utc = true ↔
          editedOpt c.edited ≠ none ∧
            (inst.edited_utc = none ∨
              ∃ t1 t0, editedOpt c.edited = some t1 ∧ inst.edited_utc = some t0 ∧ t0 < t1))
        ∧ (needsFullUpdate (editedOpt c.edited) inst.edited_utc = true →
            ∃ a dbA, getOrCreateAuthor db c.author = .ok (a, dbA) ∧
              db' = saveComment dbA (updateCommentFull inst c a (resolveParent cache c)))
        ∧ (needsFullUpdate (editedOpt c.edited) inst.edited_utc = false →
            db' = saveComment db (updateCommentMetadata inst c) ∧
            (updateCommentMetadata inst c).score = c.score ∧
            (updateCommentMetadata inst c).stickied = c.stickied ∧
            (updateCommentMetadata inst c).saved = c.saved ∧
            (updateCommentMetadata inst c).reddit_id = inst.reddit_id ∧
            (updateCommentMetadata inst c).submission = inst.submission ∧
            (updateCommentMetadata inst c).author = inst.author ∧
            (updateCommentMetadata inst c).body = inst.body ∧
            (updateCommentMetadata inst c).body_html = inst.body_html ∧
            (updateCommentMetadata inst c).created_utc = inst.created_utc ∧
            (updateCommentMetadata inst c).parent = inst.parent ∧
            (updateCommentMetadata inst c).distinguished = inst.distinguished ∧
            (updateCommentMetadata inst c).edited_utc = inst.edited_utc ∧
            (updateCommentMetadata inst c).is_submitter = inst.is_submitter ∧
            (updateCommentMetadata inst c).permalink = inst.permalink))) := by
  constructor
  · intro db f subreddit inst r db' hfind hproc
    refine ⟨needsFullUpdate_iff _ _, ?_, ?_⟩
    · intro hN
      simp only [processSubmission, hfind] at hproc
      rw [if_pos hN] at hproc
      cases hA : getOrCreateAuthor db f.author with
      | ok p =>
        obtain ⟨a, dbA⟩ := p
        rw [hA] at hproc
        simp only [Except.ok.injEq, Prod.mk.injEq] at hproc
        obtain ⟨hr, hdb⟩ := hproc
        refine ⟨a, dbA, rfl, hr.symm, ?_⟩
        rw [← hr]
        exact hdb.symm
      | error e =>
        rw [hA] at hproc
        simp at hproc
    · intro hN
      simp only [processSubmission, hfind] at hproc
      rw [if_neg (by simp [hN])] at hproc
      simp only [Except.ok.injEq, Prod.mk.injEq] at hproc
      obtain ⟨hr, hdb⟩ := hproc
      subst hr
      exact ⟨rfl, hdb.symm, rfl, rfl, rfl, rfl, rfl, rfl, rfl, rfl, rfl, rfl, rfl,
        rfl, rfl, rfl, rfl, rfl, rfl, rfl, rfl, rfl, rfl, rfl, rfl⟩
  · intro subId db cache c inst db' cache' hfind hproc
    refine ⟨needsFullUpdate_iff _ _, ?_, ?_⟩
    · intro hN
      simp only [processOneComment, hfind] at hproc
      rw [if_pos hN] at hproc
      cases hA : getOrCreateAuthor db c.author with
      | ok p =>
        obtain ⟨a, dbA⟩ := p
        rw [hA] at hproc
        simp only [Except.ok.injEq, Prod.mk.injEq] at hproc
        exact ⟨a, dbA, rfl, hproc.1.symm⟩
      | error e =>
        rw [hA] at hproc
        simp at hproc
    · intro hN
      simp only [processOneComment, hfind] at hproc
      rw [if_neg (by simp [hN])] at hproc
      simp only [Except.ok.injEq, Prod.mk.injEq] at hproc
      exact ⟨hproc.1.symm, rfl, rfl, rfl, rfl, rfl, rfl, rfl, rfl, rfl, rfl, rfl, rfl,
        rfl, rfl⟩

/-- A stored submission row with `edited_utc = 50`, for exercising the
edited-timestamp rule. -/
def sampleStoredSub : SubmissionRow :=
  { reddit_id := "s9", author := none, subreddit := "ml", title := "old title",
    selftext := "old", url := "u", created_utc := 5, score := 10, upvote_ratio := 90,
    num_comments := 2, over_18 := false, spoiler := false, stickied := false,
    distinguished := none, edited_utc := some 50, locked := false, saved := false,
    is_original_content := false, is_self := true, permalink := "/s9",
    author_flair_text := none, link_flair_text := none,
    link_flair_template_id := none }

/-- A fetched snapshot of the same submission whose edited timestamp (30) is
older than the stored one (50): the metadata-only path must be taken. -/
def sampleFetchedSub : FetchedSubmission :=
  { id := "s9", author := none, title := "new title", selftext := "new",
    url := "u2", created_utc := 5, score := 42, upvote_ratio := 80,
    num_comments := 3, over_18 := false, spoiler := false, stickied := true,
    distinguished := none, edited := 30, locked := false, saved := false,
    is_original_content := false, is_self := true, permalink := "/s9",
    author_flair_text := none, link_flair_text := none,
    link_flair_template_id := none, comments := [] }

/-- Store holding the sample submission. -/
def sampleSubDb : DB := ⟨[], [sampleStoredSub], []⟩

/-- A stored comment row with no edit timestamp. -/
def sampleStoredComment : CommentRow :=
  { reddit_id := "c9", submission := "s9", author := none, body := "old",
    body_html := "old", created_utc := 7, score := 1, parent := none,
    distinguished := none, edited_utc := none, stickied := false, saved := false,
    is_submitter := false, permalink := "/c9" }

/-- A fetched snapshot of the same comment that was never edited: the
metadata-only path must be taken. -/
def sampleFetchedComment : FetchedComment :=
  { id := "c9", author := none, body := "new", body_html := "new",
    created_utc := 7, score := 5, parent_id := "t3_s9", distinguished := none,
    edited := 0, stickied := false, saved := true, is_submitter := false,
    permalink := "/c9" }

/-- Witness for C1: both halves applied at concrete stored rows and fetched
snapshots, discharging the lookup and execution hypotheses by evaluation. -/
theorem c1_witness :
    (needsFullUpdate (editedOpt sampleFetchedSub.edited) sampleStoredSub.edited_utc = true ↔
      editedOpt sampleFetchedSub.edited ≠ none ∧
        (sampleStoredSub.edited_utc = none ∨
          ∃ t1 t0, editedOpt sampleFetchedSub.edited = some t1 ∧
            sampleStoredSub.edited_utc = some t0 ∧ t0 < t1)) ∧
    (needsFullUpdate (editedOpt sampleFetchedComment.edited)
        sampleStoredComment.edited_utc = true ↔
      editedOpt sampleFetchedComment.edited ≠ none ∧
        (sampleStoredComment.edited_utc = none ∨
          ∃ t1 t0, editedOpt sampleFetchedComment.edited = some t1 ∧
            sampleStoredComment.edited_utc = some t0 ∧ t0 < t1)) :=
  ⟨(c1_edited_timestamp_rule.1 sampleSubDb sampleFetchedSub "ml" sampleStoredSub
      (updateSubmissionMetadata sampleStoredSub sampleFetchedSub)
      (saveSubmission sampleSubDb (updateSubmissionMetadata sampleStoredSub sampleFetchedSub))
      rfl rfl).1,
    (c1_edited_timestamp_rule.2 "s9" sampleSubDb [sampleStoredComment] sampleFetchedComment
      sampleStoredComment
      (saveComment sampleSubDb (updateCommentMetadata sampleStoredComment sampleFetchedComment))
      (replaceFirst
        (fun s => s.reddit_id ==
          (updateCommentMetadata sampleStoredComment sampleFetchedComment).reddit_id)
        (updateCommentMetadata sampleStoredComment sampleFetchedComment) [sampleStoredComment])
      rfl rfl).1⟩

/-! ## C8: the text assembler -/

theorem string_foldl_append (l : List String) :
    ∀ a : String, l.foldl (fun r s => r ++ s) a = a ++ l.foldl (fun r s => r ++ s) "" := by
  induction l with
  | nil => intro a; simp [String.append_empty]
  | cons x xs ih =>
    intro a
    simp only [List.foldl_cons]
    rw [ih (a ++ x), ih ("" ++ x), String.empty_append, String.append_assoc]

theorem join_cons_str (s : String) (l : List String) :
    String.join (s :: l) = s ++ String.join l := by
  simp only [String.join, List.foldl_cons, String.empty_append]
  exact string_foldl_append l s

theorem foldl_append_eq_join {α : Type} (g : α → String) (l : List α) :
    ∀ acc : String, l.foldl (fun a x => a ++ g x) acc = acc ++ String.join (l.map g) := by
  induction l with
  | nil => intro acc; simp [String.join, String.append_empty]
  | cons x xs ih =>
    intro acc
    simp only [List.foldl_cons, List.map_cons]
    rw [ih, join_cons_str, String.append_assoc]

theorem formatComment_eq_specBlock (comments : List CommentRow) :
    ∀ (fuel : Nat) (c : CommentRow) (depth : Nat),
      formatComment comments fuel c depth = specCommentBlock comments fuel c depth := by
  intro fuel
  induction fuel with
  | zero => intro c depth; rfl
  | succ n ih =>
    intro c depth
    simp only [formatComment, specCommentBlock]
    have hfun : (fun (acc : String) (child : CommentRow) =>
        acc ++ "\n" ++ formatComment comments n child (depth + 1)) =
        fun acc child => acc ++ ("\n" ++ specCommentBlock comments n child (depth + 1)) := by
      funext acc child
      rw [String.append_assoc, ih child (depth + 1)]
    rw [hfun, foldl_append_eq_join]

/-- C8: the text assembler is a pure function of the submission-with-comments
snapshot (so rendering the same snapshot twice is definitionally the same
output), and its output has exactly the shape the specification describes:
a title line, an author line rendering `[deleted]` for a null author, the
body when non-blank, the separator block, then every root comment in
ascending creation-time order rendered depth-first with the direct children
in ascending creation-time order and four spaces of indentation per depth
level (`specAssembledText` transcribes the specification's wording). -/
theorem c8_text_assembler_matches_spec (s : SubmissionRow) (comments : List CommentRow) :
    getSubmissionText s comments = specAssembledText s comments := by
  simp only [getSubmissionText, specAssembledText]
  have hfun : (fun (acc : String) (c : CommentRow) =>
      acc ++ formatComment comments (comments.length + 1) c 0 ++ "\n") =
      fun acc c => acc ++ (specCommentBlock comments (comments.length + 1) c 0 ++ "\n") := by
    funext acc c
    rw [String.append_assoc, formatComment_eq_specBlock]
  rw [hfun, foldl_append_eq_join]

/-! ## C6: idempotence of reconciliation

The second pass over an unchanged snapshot always takes the metadata-only
paths with values identical to those already stored, so it rewrites every
row to itself.  The lemmas below establish the invariants a successful first
pass leaves behind. -/

/-- After reconciliation, the stored row for a fetched comment carries the
fetched metadata, belongs to the right submission, and the edited rule can
demand no further full update. -/
def commentSynced (subId : String) (c : FetchedComment) (db : DB) : Prop :=
  ∃ row : CommentRow,
    db.comments.find? (fun r => r.reddit_id == c.id) = some row ∧
    row.reddit_id = c.id ∧ row.submission = subId ∧
    row.score = c.score ∧ row.stickied = c.stickied ∧ row.saved = c.saved ∧
    needsFullUpdate (editedOpt c.edited) row.edited_utc = false

/-- The per-submission cache agrees with the store: every cached row is the
row the store's `find?` yields for its id, and belongs to this submission. -/
def cacheInv (subId : String) (db : DB) (cache : List CommentRow) : Prop :=
  ∀ (i : String) (row : CommentRow),
    cache.find? (fun r => r.reddit_id == i) = some row →
    db.comments.find? (fun r => r.reddit_id == i) = some row ∧
      row.submission = subId ∧ row.reddit_id = i

/-- The stored submission row carries the fetched metadata after a
successful `process_submission`, and the edited rule is settled. -/
def submissionSynced (f : FetchedSubmission) (r : SubmissionRow) : Prop :=
  r.reddit_id = f.id ∧ r.score = f.score ∧ r.upvote_ratio = f.upvote_ratio ∧
    r.num_comments = f.num_comments ∧ r.stickied = f.stickied ∧
    r.locked = f.locked ∧ r.saved = f.saved ∧
    needsFullUpdate (editedOpt f.edited) r.edited_utc = false

theorem getOrCreateRedditor_frame {db : DB} {username : String} {created : Option Nat}
    {r : RedditorRow} {db' : DB} (h : getOrCreateRedditor db username created = .ok (r, db')) :
    db'.comments = db.comments ∧ db'.submissions = db.submissions := by
  unfold getOrCreateRedditor at h
  cases hf : db.redditors.find? (fun x => x.username == username && x.created_utc == created) with
  | some r0 =>
    rw [hf] at h
    simp only [Except.ok.injEq, Prod.mk.injEq] at h
    rw [← h.2]
    exact ⟨rfl, rfl⟩
  | none =>
    rw [hf] at h
    by_cases hany : db.redditors.any (fun x => x.username == username)
    · rw [if_pos hany] at h
      simp at h
    · rw [if_neg hany] at h
      simp only [Except.ok.injEq, Prod.mk.injEq] at h
      rw [← h.2]
      exact ⟨rfl, rfl⟩

theorem getOrCreateAuthor_frame {db : DB} {author : Option FetchedAuthor}
    {x : Option String} {db' : DB} (h : getOrCreateAuthor db author = .ok (x, db')) :
    db'.comments = db.comments ∧ db'.submissions = db.submissions := by
  cases author with
  | none =>
    simp only [getOrCreateAuthor, Except.ok.injEq, Prod.mk.injEq] at h
    rw [← h.2]
    exact ⟨rfl, rfl⟩
  | some a =>
    simp only [getOrCreateAuthor] at h
    cases hg : getOrCreateRedditor db a.name
        (if a.created_utc ≠ 0 then some a.created_utc else none) with
    | ok p =>
      obtain ⟨r, db2⟩ := p
      rw [hg] at h
      simp only [Except.ok.injEq, Prod.mk.injEq] at h
      rw [← h.2]
      exact getOrCreateRedditor_frame hg
    | error e =>
      rw [hg] at h
      simp at h

/-- Specialization of `find?_replaceFirst_of_ne` to comment rows keyed on
`reddit_id`, shaped for rewriting. -/
theorem find?_replaceFirst_comment_ne {i j : String} (x : CommentRow) (hij : i ≠ j)
    (hx : x.reddit_id = j) (l : List CommentRow) :
    (replaceFirst (fun s => s.reddit_id == j) x l).find? (fun r => r.reddit_id == i) =
      l.find? (fun r => r.reddit_id == i) :=
  find?_replaceFirst_of_ne (fun s => s.reddit_id) x hij hx l

theorem processOneComment_step {subId : String} {db : DB} {cache : List CommentRow}
    {c : FetchedComment} {db' : DB} {cache' : List CommentRow}
    (hInv : cacheInv subId db cache)
    (h : processOneComment subId db cache c = .ok (db', cache')) :
    commentSynced subId c db' ∧ cacheInv subId db' cache' := by
  cases hfind : cacheFind cache c.id with
  | some inst =>
    obtain ⟨hdbf, hsub, hid⟩ := hInv c.id inst hfind
    simp only [processOneComment, hfind] at h
    by_cases hN : needsFullUpdate (editedOpt c.edited) inst.edited_utc = true
    · rw [if_pos hN] at h
      cases hA : getOrCreateAuthor db c.author with
      | ok p =>
        obtain ⟨a, dbA⟩ := p
        rw [hA] at h
        simp only [Except.ok.injEq, Prod.mk.injEq] at h
        obtain ⟨hdb', hcache'⟩ := h
        obtain ⟨hcomA, -⟩ := getOrCreateAuthor_frame hA
        have hrid : (updateCommentFull inst c a (resolveParent cache c)).reddit_id = c.id := hid
        have hdbfA : dbA.comments.find? (fun x => x.reddit_id == c.id) = some inst := by
          rw [hcomA]; exact hdbf
        have hfindNew : db'.comments.find? (fun x => x.reddit_id == c.id) =
            some (updateCommentFull inst c a (resolveParent cache c)) := by
          rw [← hdb']
          show (replaceFirst
              (fun s => s.reddit_id == (updateCommentFull inst c a (resolveParent cache c)).reddit_id)
              (updateCommentFull inst c a (resolveParent cache c)) dbA.comments).find?
              (fun x => x.reddit_id == c.id) = _
          rw [hrid]
          exact find?_replaceFirst_self (by simp [hrid]) hdbfA
        constructor
        · exact ⟨updateCommentFull inst c a (resolveParent cache c), hfindNew, hrid, hsub,
            rfl, rfl, rfl, needsFullUpdate_refl _⟩
        · intro i row hrow
          rw [← hcache'] at hrow
          by_cases hic : i = c.id
          · subst hic
            rw [hrid] at hrow
            rw [find?_replaceFirst_self (by simp [hrid]) hfind] at hrow
            obtain rfl : updateCommentFull inst c a (resolveParent cache c) = row := by
              injection hrow
            exact ⟨hfindNew, hsub, hrid⟩
          · rw [hrid] at hrow
            rw [find?_replaceFirst_comment_ne _ hic hrid _] at hrow
            obtain ⟨hdbi, hsubi, hidi⟩ := hInv i row hrow
            refine ⟨?_, hsubi, hidi⟩
            rw [← hdb']
            show (replaceFirst
                (fun s => s.reddit_id == (updateCommentFull inst c a (resolveParent cache c)).reddit_id)
                (updateCommentFull inst c a (resolveParent cache c)) dbA.comments).find?
                (fun x => x.reddit_id == i) = some row
            rw [hrid]
            rw [find?_replaceFirst_comment_ne _ hic hrid _, hcomA]
            exact hdbi
      | error e =>
        rw [hA] at h
        simp at h
    · rw [if_neg hN] at h
      have hNf : needsFullUpdate (editedOpt c.edited) inst.edited_utc = false := by
        simpa using hN
      simp only [Except.ok.injEq, Prod.mk.injEq] at h
      obtain ⟨hdb', hcache'⟩ := h
      have hrid : (updateCommentMetadata inst c).reddit_id = c.id := hid
      have hfindNew : db'.comments.find? (fun x => x.reddit_id == c.id) =
          some (updateCommentMetadata inst c) := by
        rw [← hdb']
        show (replaceFirst (fun s => s.reddit_id == (updateCommentMetadata inst c).reddit_id)
            (updateCommentMetadata inst c) db.comments).find?
            (fun x => x.reddit_id == c.id) = _
        rw [hrid]
        exact find?_replaceFirst_self (by simp [hrid]) hdbf
      constructor
      · exact ⟨updateCommentMetadata inst c, hfindNew, hrid, hsub, rfl, rfl, rfl, hNf⟩
      · intro i row hrow
        rw [← hcache'] at hrow
        by_cases hic : i = c.id
        · subst hic
          rw [hrid] at hrow
          rw [find?_replaceFirst_self (by simp [hrid]) hfind] at hrow
          obtain rfl : updateCommentMetadata inst c = row := by injection hrow
          exact ⟨hfindNew, hsub, hrid⟩
        · rw [hrid] at hrow
          rw [find?_replaceFirst_comment_ne _ hic hrid _] at hrow
          obtain ⟨hdbi, hsubi, hidi⟩ := hInv i row hrow
          refine ⟨?_, hsubi, hidi⟩
          rw [← hdb']
          show (replaceFirst (fun s => s.reddit_id == (updateCommentMetadata inst c).reddit_id)
              (updateCommentMetadata inst c) db.comments).find?
              (fun x => x.reddit_id == i) = some row
          rw [hrid]
          rw [find?_replaceFirst_comment_ne _ hic hrid _]
          exact hdbi
  | none =>
    simp only [processOneComment, hfind] at h
    cases hA : getOrCreateAuthor db c.author with
    | ok p =>
      obtain ⟨a, dbA⟩ := p
      simp only [hA] at h
      obtain ⟨hcomA, -⟩ := getOrCreateAuthor_frame hA
      by_cases hany :
          dbA.comments.any
            (fun s => s.reddit_id == (createCommentRow c subId a (resolveParent cache c)).reddit_id) = true
      · rw [if_pos hany] at h
        simp at h
      · rw [if_neg hany] at h
        simp only [Except.ok.injEq, Prod.mk.injEq] at h
        obtain ⟨hdb', hcache'⟩ := h
        have hanyf : dbA.comments.any
            (fun s => s.reddit_id == (createCommentRow c subId a (resolveParent cache c)).reddit_id)
            = false := by simpa using hany
        have hnone : dbA.comments.find?
            (fun s => s.reddit_id == (createCommentRow c subId a (resolveParent cache c)).reddit_id)
            = none := find?_eq_none_of_any_eq_false hanyf
        have hrid : (createCommentRow c subId a (resolveParent cache c)).reddit_id = c.id := rfl
        have hfindNew : db'.comments.find? (fun x => x.reddit_id == c.id) =
            some (createCommentRow c subId a (resolveParent cache c)) := by
          rw [← hdb']
          show (dbA.comments ++ [createCommentRow c subId a (resolveParent cache c)]).find?
              (fun x => x.reddit_id == c.id) = _
          have hnone' : dbA.comments.find? (fun x => x.reddit_id == c.id) = none := hnone
          rw [find?_append_none _ hnone']
          exact List.find?_cons_of_pos _ (by simp [hrid])
        constructor
        · exact ⟨createCommentRow c subId a (resolveParent cache c), hfindNew, hrid, rfl,
            rfl, rfl, rfl, needsFullUpdate_refl _⟩
        · intro i row hrow
          rw [← hcache'] at hrow
          cases hc : cache.find? (fun r => r.reddit_id == i) with
          | some row0 =>
            rw [find?_append_some _ hc] at hrow
            obtain rfl : row0 = row := by injection hrow
            obtain ⟨hdbi, hsubi, hidi⟩ := hInv i row0 hc
            refine ⟨?_, hsubi, hidi⟩
            rw [← hdb']
            show (dbA.comments ++ [createCommentRow c subId a (resolveParent cache c)]).find?
                (fun x => x.reddit_id == i) = some row0
            apply find?_append_some
            rw [hcomA]
            exact hdbi
          | none =>
            rw [find?_append_none _ hc] at hrow
            by_cases hri : ((createCommentRow c subId a (resolveParent cache c)).reddit_id == i)
              = true
            · have hcons : [createCommentRow c subId a (resolveParent cache c)].find?
                  (fun r => r.reddit_id == i) =
                  some (createCommentRow c subId a (resolveParent cache c)) :=
                List.find?_cons_of_pos _ hri
              rw [hcons] at hrow
              obtain rfl : createCommentRow c subId a (resolveParent cache c) = row := by
                injection hrow
              obtain rfl : i = c.id := by
                have hci := hri
                rw [hrid] at hci
                exact (eq_of_beq hci).symm
              exact ⟨hfindNew, rfl, hrid⟩
            · have hcons : [createCommentRow c subId a (resolveParent cache c)].find?
                  (fun r => r.reddit_id == i) =
                  List.find? (fun r => r.reddit_id == i) [] :=
                List.find?_cons_of_neg _ hri
              rw [hcons, List.find?_nil] at hrow
              exact Option.noConfusion hrow
    | error e =>
      rw [hA] at h
      simp at h

theorem processOneComment_frame {subId : String} {db : DB} {cache : List CommentRow}
    {c : FetchedComment} {db' : DB} {cache' : List CommentRow}
    (h : processOneComment subId db cache c = .ok (db', cache')) :
    db'.submissions = db.submissions ∧
    ∀ (i : String) (row : CommentRow), i ≠ c.id →
      db.comments.find? (fun r => r.reddit_id == i) = some row →
      db'.comments.find? (fun r => r.reddit_id == i) = some row := by
  cases hfind : cacheFind cache c.id with
  | some inst =>
    have hfbeq := List.find?_some hfind
    have hid : inst.reddit_id = c.id := by
      simp only [] at hfbeq
      exact eq_of_beq hfbeq
    simp only [processOneComment, hfind] at h
    by_cases hN : needsFullUpdate (editedOpt c.edited) inst.edited_utc = true
    · rw [if_pos hN] at h
      cases hA : getOrCreateAuthor db c.author with
      | ok p =>
        obtain ⟨a, dbA⟩ := p
        rw [hA] at h
        simp only [Except.ok.injEq, Prod.mk.injEq] at h
        obtain ⟨hdb', hcache'⟩ := h
        obtain ⟨hcomA, hsubA⟩ := getOrCreateAuthor_frame hA
        have hrid : (updateCommentFull inst c a (resolveParent cache c)).reddit_id = c.id := hid
        constructor
        · rw [← hdb']
          exact hsubA
        · intro i row hne hdbrow
          rw [← hdb']
          show (replaceFirst
              (fun s => s.reddit_id == (updateCommentFull inst c a (resolveParent cache c)).reddit_id)
              (updateCommentFull inst c a (resolveParent cache c)) dbA.comments).find?
              (fun r => r.reddit_id == i) = some row
          rw [hrid, find?_replaceFirst_comment_ne _ hne hrid _, hcomA]
          exact hdbrow
      | error e =>
        rw [hA] at h
        simp at h
    · rw [if_neg hN] at h
      simp only [Except.ok.injEq, Prod.mk.injEq] at h
      obtain ⟨hdb', hcache'⟩ := h
      have hrid : (updateCommentMetadata inst c).reddit_id = c.id := hid
      constructor
      · rw [← hdb']
        rfl
      · intro i row hne hdbrow
        rw [← hdb']
        show (replaceFirst (fun s => s.reddit_id == (updateCommentMetadata inst c).reddit_id)
            (updateCommentMetadata inst c) db.comments).find?
            (fun r => r.reddit_id == i) = some row
        rw [hrid, find?_replaceFirst_comment_ne _ hne hrid _]
        exact hdbrow
  | none =>
    simp only [processOneComment, hfind] at h
    cases hA : getOrCreateAuthor db c.author with
    | ok p =>
      obtain ⟨a, dbA⟩ := p
      simp only [hA] at h
      obtain ⟨hcomA, hsubA⟩ := getOrCreateAuthor_frame hA
      by_cases hany :
          dbA.comments.any
            (fun s => s.reddit_id == (createCommentRow c subId a (resolveParent cache c)).reddit_id) = true
      · rw [if_pos hany] at h
        simp at h
      · rw [if_neg hany] at h
        simp only [Except.ok.injEq, Prod.mk.injEq] at h
        obtain ⟨hdb', hcache'⟩ := h
        constructor
        · rw [← hdb']
          exact hsubA
        · intro i row hne hdbrow
          rw [← hdb']
          show (dbA.comments ++ [createCommentRow c subId a (resolveParent cache c)]).find?
              (fun r => r.reddit_id == i) = some row
          apply find?_append_some
          rw [hcomA]
          exact hdbrow
    | error e =>
      rw [hA] at h
      simp at h

theorem processCommentList_frame (subId : String) :
    ∀ (cs : List FetchedComment) (db : DB) (cache : List CommentRow) (db1 : DB),
      processCommentList subId db cache cs = .ok db1 →
      db1.submissions = db.submissions ∧
      ∀ (i : String) (row : CommentRow), i ∉ cs.map (fun c => c.id) →
        db.comments.find? (fun r => r.reddit_id == i) = some row →
        db1.comments.find? (fun r => r.reddit_id == i) = some row := by
  intro cs
  induction cs with
  | nil =>
    intro db cache db1 h
    simp only [processCommentList, Except.ok.injEq] at h
    subst h
    exact ⟨rfl, fun i row _ hr => hr⟩
  | cons c rest ih =>
    intro db cache db1 h
    cases hstep : processOneComment subId db cache c with
    | ok p =>
      obtain ⟨db2, cache2⟩ := p
      simp only [processCommentList, hstep] at h
      obtain ⟨hsubs2, hpres2⟩ := processOneComment_frame hstep
      obtain ⟨hsubs1, hpres1⟩ := ih db2 cache2 db1 h
      refine ⟨hsubs1.trans hsubs2, ?_⟩
      intro i row hni hdbrow
      simp only [List.map_cons, List.mem_cons, not_or] at hni
      exact hpres1 i row (by simpa using hni.2) (hpres2 i row hni.1 hdbrow)
    | error e =>
      simp [processCommentList, hstep] at h

theorem processCommentList_synced (subId : String) :
    ∀ (cs : List FetchedComment) (db : DB) (cache : List CommentRow) (db1 : DB),
      cacheInv subId db cache → (cs.map (fun c => c.id)).Nodup →
      processCommentList subId db cache cs = .ok db1 →
      ∀ c ∈ cs, commentSynced subId c db1 := by
  intro cs
  induction cs with
  | nil =>
    intro db cache db1 _ _ _ c hc
    exact absurd hc (List.not_mem_nil c)
  | cons c0 rest ih =>
    intro db cache db1 hInv hnd h c hc
    simp only [List.map_cons, List.nodup_cons] at hnd
    obtain ⟨hnotin, hndrest⟩ := hnd
    cases hstep : processOneComment subId db cache c0 with
    | ok p =>
      obtain ⟨db2, cache2⟩ := p
      simp only [processCommentList, hstep] at h
      obtain ⟨hsync0, hInv2⟩ := processOneComment_step hInv hstep
      rcases List.mem_cons.mp hc with rfl | hcr
      · obtain ⟨row, hrow, hrid, hrsub, hsc, hst, hsv, hNe⟩ := hsync0
        obtain ⟨-, hpres⟩ := processCommentList_frame subId rest db2 cache2 db1 h
        exact ⟨row, hpres c.id row (by simpa using hnotin) hrow, hrid, hrsub, hsc, hst, hsv, hNe⟩
      · exact ih db2 cache2 db1 hInv2 hndrest h c hcr
    | error e =>
      simp [processCommentList, hstep] at h

theorem processCommentList_identity (subId : String) :
    ∀ (cs : List FetchedComment) (db : DB) (cache : List CommentRow),
      (∀ c ∈ cs, ∃ row : CommentRow,
        cache.find? (fun r => r.reddit_id == c.id) = some row ∧
        db.comments.find? (fun r => r.reddit_id == c.id) = some row ∧
        row.reddit_id = c.id ∧ row.score = c.score ∧ row.stickied = c.stickied ∧
        row.saved = c.saved ∧ needsFullUpdate (editedOpt c.edited) row.edited_utc = false) →
      processCommentList subId db cache cs = .ok db := by
  intro cs
  induction cs with
  | nil => intro db cache _; rfl
  | cons c rest ih =>
    intro db cache hprop
    obtain ⟨row, hcache, hdb, hrid, hsc, hst, hsv, hNe⟩ :=
      hprop c (List.mem_cons_self c rest)
    have hstep : processOneComment subId db cache c = .ok (db, cache) := by
      have hfind : cacheFind cache c.id = some row := hcache
      simp only [processOneComment, hfind]
      rw [if_neg (by simp [hNe])]
      have hupd : updateCommentMetadata row c = row := by
        rw [updateCommentMetadata, ← hsc, ← hst, ← hsv]
      rw [hupd]
      have hdb' : db.comments.find? (fun r => r.reddit_id == row.reddit_id) = some row := by
        rw [hrid]; exact hdb
      have hcache' : cache.find? (fun r => r.reddit_id == row.reddit_id) = some row := by
        rw [hrid]; exact hcache
      rw [saveComment, replaceFirst_eq_self hdb', replaceFirst_eq_self hcache']
    simp only [processCommentList]
    rw [hstep]
    exact ih db cache (fun c' hc' => hprop c' (List.mem_cons_of_mem c hc'))

theorem processSubmission_post {db : DB} {f : FetchedSubmission} {sub : String}
    {inst : SubmissionRow} {db' : DB}
    (h : processSubmission db f sub = .ok (inst, db')) :
    db'.submissions.find? (fun s => s.reddit_id == f.id) = some inst ∧
    submissionSynced f inst ∧ db'.comments = db.comments := by
  cases hfind : db.submissions.find? (fun s => s.reddit_id == f.id) with
  | some r0 =>
    have hfbeq0 := List.find?_some hfind
    have hid0 : r0.reddit_id = f.id := by
      simp only [] at hfbeq0
      exact eq_of_beq hfbeq0
    simp only [processSubmission, hfind] at h
    by_cases hN : needsFullUpdate (editedOpt f.edited) r0.edited_utc = true
    · rw [if_pos hN] at h
      cases hA : getOrCreateAuthor db f.author with
      | ok p =>
        obtain ⟨a, dbA⟩ := p
        rw [hA] at h
        simp only [Except.ok.injEq, Prod.mk.injEq] at h
        obtain ⟨hr, hdb'⟩ := h
        obtain ⟨hcomA, hsubA⟩ := getOrCreateAuthor_frame hA
        subst hr
        have hrid : (updateSubmissionFull r0 f a).reddit_id = f.id := hid0
        refine ⟨?_, ⟨hrid, rfl, rfl, rfl, rfl, rfl, rfl, needsFullUpdate_refl _⟩, ?_⟩
        · rw [← hdb']
          show (replaceFirst
              (fun s => s.reddit_id == (updateSubmissionFull r0 f a).reddit_id)
              (updateSubmissionFull r0 f a) dbA.submissions).find?
              (fun s => s.reddit_id == f.id) = _
          rw [hrid, hsubA]
          exact find?_replaceFirst_self (by simp [hrid]) hfind
        · rw [← hdb']
          exact hcomA
      | error e =>
        rw [hA] at h
        simp at h
    · rw [if_neg hN] at h
      simp only [Except.ok.injEq, Prod.mk.injEq] at h
      obtain ⟨hr, hdb'⟩ := h
      have hNf : needsFullUpdate (editedOpt f.edited) r0.edited_utc = false := by
        simpa using hN
      subst hr
      have hrid : (updateSubmissionMetadata r0 f).reddit_id = f.id := hid0
      refine ⟨?_, ⟨hrid, rfl, rfl, rfl, rfl, rfl, rfl, hNf⟩, ?_⟩
      · rw [← hdb']
        show (replaceFirst (fun s => s.reddit_id == (updateSubmissionMetadata r0 f).reddit_id)
            (updateSubmissionMetadata r0 f) db.submissions).find?
            (fun s => s.reddit_id == f.id) = _
        rw [hrid]
        exact find?_replaceFirst_self (by simp [hrid]) hfind
      · rw [← hdb']
        rfl
  | none =>
    simp only [processSubmission, hfind] at h
    cases hA : getOrCreateAuthor db f.author with
    | ok p =>
      obtain ⟨a, dbA⟩ := p
      simp only [hA] at h
      obtain ⟨hcomA, hsubA⟩ := getOrCreateAuthor_frame hA
      cases hins : insertSubmission dbA (createSubmissionRow f sub a) with
      | ok db2 =>
        rw [hins] at h
        simp only [Except.ok.injEq, Prod.mk.injEq] at h
        obtain ⟨hr, hdb'⟩ := h
        subst hr
        unfold insertSubmission at hins
        by_cases hany :
            dbA.submissions.any
              (fun s => s.reddit_id == (createSubmissionRow f sub a).reddit_id) = true
        · rw [if_pos hany] at hins
          simp at hins
        · rw [if_neg hany] at hins
          simp only [Except.ok.injEq] at hins
          refine ⟨?_, ⟨rfl, rfl, rfl, rfl, rfl, rfl, rfl, needsFullUpdate_refl _⟩, ?_⟩
          · rw [← hdb', ← hins]
            show (dbA.submissions ++ [createSubmissionRow f sub a]).find?
                (fun s => s.reddit_id == f.id) = _
            have hnone : dbA.submissions.find? (fun s => s.reddit_id == f.id) = none := by
              rw [hsubA]; exact hfind
            rw [find?_append_none _ hnone]
            exact List.find?_cons_of_pos _ (by simp [createSubmissionRow])
          · rw [← hdb', ← hins]
            exact hcomA
      | error e =>
        rw [hins] at h
        simp at h
    | error e =>
      rw [hA] at h
      simp at h

theorem processSubmission_identity (db : DB) (f : FetchedSubmission) (sub : String)
    (r : SubmissionRow)
    (hfind : db.submissions.find? (fun s => s.reddit_id == f.id) = some r)
    (hsync : submissionSynced f r) :
    processSubmission db f sub = .ok (r, db) := by
  obtain ⟨hid, hsc, hup, hnum, hst, hlk, hsv, hNe⟩ := hsync
  simp only [processSubmission, hfind]
  rw [if_neg (by simp [hNe])]
  have hupd : updateSubmissionMetadata r f = r := by
    rw [updateSubmissionMetadata, ← hsc, ← hup, ← hnum, ← hst, ← hlk, ← hsv]
  rw [hupd]
  have hfind' : db.submissions.find? (fun s => s.reddit_id == r.reddit_id) = some r := by
    rw [hid]; exact hfind
  rw [saveSubmission, replaceFirst_eq_self hfind']

/-- C6: reconciliation is idempotent.  If one pass over a fetched
submission-with-comments snapshot succeeds (starting from a store whose
comment keys are unique, with a duplicate-free fetched comment list), then a
second pass over the same unchanged snapshot returns the stored state
entirely unchanged: every row — content and metadata fields alike — is
exactly what the first pass left, the metadata writes of the second pass
rewriting the values the first pass already stored. -/
theorem c6_reconciliation_idempotent (db : DB) (f : FetchedSubmission) (sub : String)
    (db1 : DB)
    (hdbN : (db.comments.map (fun r => r.reddit_id)).Nodup)
    (hfN : (f.comments.map (fun c => c.id)).Nodup)
    (h : reconcileSubmission db f sub = .ok db1) :
    reconcileSubmission db1 f sub = .ok db1 := by
  unfold reconcileSubmission at h
  cases hps : processSubmission db f sub with
  | error e =>
    rw [hps] at h
    simp at h
  | ok p =>
    obtain ⟨inst, dbA⟩ := p
    simp only [hps] at h
    obtain ⟨hfindA, hsync, hcomA⟩ := processSubmission_post hps
    unfold processSubmissionComments at h
    have hInv : cacheInv inst.reddit_id dbA
        (dbA.comments.filter (fun r => r.submission == inst.reddit_id)) := by
      intro i row hrow
      have hmem : row ∈ dbA.comments.filter (fun r => r.submission == inst.reddit_id) :=
        List.mem_of_find?_eq_some hrow
      have hq : (row.submission == inst.reddit_id) = true := by
        have := List.of_mem_filter hmem
        simpa using this
      have hkey := List.find?_some hrow
      have hNd : (dbA.comments.map (fun r => r.reddit_id)).Nodup := by
        rw [hcomA]; exact hdbN
      refine ⟨find?_of_filter_nodup (fun r : CommentRow => r.reddit_id)
        (fun r : CommentRow => r.submission == inst.reddit_id) hrow hNd, eq_of_beq hq, ?_⟩
      simp only [] at hkey
      exact eq_of_beq hkey
    have hsynced := processCommentList_synced inst.reddit_id f.comments dbA _ db1 hInv hfN h
    obtain ⟨hsubs1, -⟩ := processCommentList_frame inst.reddit_id f.comments dbA _ db1 h
    have hfind1 : db1.submissions.find? (fun s => s.reddit_id == f.id) = some inst := by
      rw [hsubs1]
      exact hfindA
    unfold reconcileSubmission
    rw [processSubmission_identity db1 f sub inst hfind1 hsync]
    show processSubmissionComments db1 f inst.reddit_id = .ok db1
    unfold processSubmissionComments
    apply processCommentList_identity
    intro c hc
    obtain ⟨row, hrowfind, hrid, hrsub, hsc, hst, hsv, hNe⟩ := hsynced c hc
    exact ⟨row, find?_filter hrowfind (by simp [hrsub]), hrowfind, hrid, hsc, hst, hsv, hNe⟩

/-- A fetched comment for the idempotence witness (a root comment: its
parent reference names the submission itself). -/
def idemFetchedComment : FetchedComment :=
  { id := "wc1", author := some ⟨"bob", 0⟩, body := "hi", body_html := "<p>hi</p>",
    created_utc := 20, score := 3, parent_id := "t3_w1", distinguished := none,
    edited := 0, stickied := false, saved := false, is_submitter := false,
    permalink := "/wc1" }

/-- A fetched submission snapshot for the idempotence witness. -/
def idemFetched : FetchedSubmission :=
  { id := "w1", author := some ⟨"alice", 100⟩, title := "t", selftext := "body",
    url := "u", created_utc := 10, score := 5, upvote_ratio := 95,
    num_comments := 1, over_18 := false, spoiler := false, stickied := false,
    distinguished := none, edited := 7, locked := false, saved := false,
    is_original_content := false, is_self := true, permalink := "/w1",
    author_flair_text := none, link_flair_text := none,
    link_flair_template_id := none, comments := [idemFetchedComment] }

/-- The store a first reconciliation pass over `idemFetched` produces from
the empty store. -/
def idemResultDb : DB :=
  ⟨[⟨"alice", some 100⟩, ⟨"bob", none⟩],
   [createSubmissionRow idemFetched "ml" (some "alice")],
   [createCommentRow idemFetchedComment "w1" (some "bob") none]⟩

/-- Witness for C6: a concrete first pass from the empty store computed by
evaluation, then the theorem applied to show the second pass is the
identity. -/
theorem c6_witness : reconcileSubmission idemResultDb idemFetched "ml" = .ok idemResultDb :=
  c6_reconciliation_idempotent ⟨[], [], []⟩ idemFetched "ml" idemResultDb
    (by decide) (by decide) rfl

end Collector
